import Mathlib

/-!
Verification of the OSM-to-DXF conversion core (osm_to_dxf.py): the
tag-to-layer classifier (LayerMapper.get_layer_info), the layer registry
(DXFGenerator.create_layer), and the geometry assembly passes
(DXFGenerator.process_nodes, DXFGenerator.process_ways).

Modelling conventions:
- Python dicts that are iterated (tag mappings, the layer configuration
  table) become association lists in stored (insertion) order.
- Coordinates are abstracted: latitudes, longitudes and projected
  coordinates are integers, and the projection is an arbitrary function
  parameter.  The code treats coordinates opaquely (it only stores,
  compares and forwards them), so no property below depends on real
  floating-point arithmetic.
- A node x/y field is None before projection, hence Option Int here.
- AutoCAD color indices follow ezdxf.colors: RED = 1, YELLOW = 2,
  GREEN = 3, CYAN = 4, BLUE = 5, MAGENTA = 6, WHITE = 7, GRAY = 8.
-/

/-- ezdxf ACI color code. -/
def RED : Nat := 1

/-- ezdxf ACI color code. -/
def YELLOW : Nat := 2

/-- ezdxf ACI color code. -/
def GREEN : Nat := 3

/-- ezdxf ACI color code. -/
def CYAN : Nat := 4

/-- ezdxf ACI color code. -/
def BLUE : Nat := 5

/-- ezdxf ACI color code. -/
def MAGENTA : Nat := 6

/-- ezdxf ACI color code. -/
def WHITE : Nat := 7

/-- ezdxf ACI color code. -/
def GRAY : Nat := 8

/-- The style record returned by the classifier: the dict
    with keys layer, color, lineweight built in LayerMapper.layer_config. -/
structure LayerInfo where
  layer : String
  color : Nat
  lineweight : Nat
deriving DecidableEq, Repr

/-- First-match association-list lookup; models a Python dict lookup
    (dict keys are unique, so first match is the only match). -/
def lookupTab {α : Type} (k : String) : List (String × α) → Option α
  | [] => none
  | (k₂, v) :: rest => if k₂ = k then some v else lookupTab k rest

/-- LayerMapper.layer_config (osm_to_dxf.py lines 57-91), the static
    priority table: tag key to (tag value to style) table. -/
def layer_config : List (String × List (String × LayerInfo)) :=
  [("highway",
    [("motorway", ⟨"HIGHWAY_MOTORWAY", RED, 100⟩),
     ("trunk", ⟨"HIGHWAY_TRUNK", RED, 80⟩),
     ("primary", ⟨"HIGHWAY_PRIMARY", YELLOW, 60⟩),
     ("secondary", ⟨"HIGHWAY_SECONDARY", CYAN, 40⟩),
     ("tertiary", ⟨"HIGHWAY_TERTIARY", GREEN, 30⟩),
     ("residential", ⟨"HIGHWAY_RESIDENTIAL", WHITE, 20⟩),
     ("service", ⟨"HIGHWAY_SERVICE", GRAY, 10⟩),
     ("footway", ⟨"HIGHWAY_FOOTWAY", MAGENTA, 5⟩),
     ("cycleway", ⟨"HIGHWAY_CYCLEWAY", BLUE, 5⟩),
     ("path", ⟨"HIGHWAY_PATH", GREEN, 5⟩)]),
   ("building",
    [("default", ⟨"BUILDING", GRAY, 25⟩)]),
   ("waterway",
    [("river", ⟨"WATERWAY_RIVER", BLUE, 50⟩),
     ("stream", ⟨"WATERWAY_STREAM", BLUE, 20⟩),
     ("canal", ⟨"WATERWAY_CANAL", BLUE, 30⟩),
     ("drain", ⟨"WATERWAY_DRAIN", CYAN, 10⟩)]),
   ("natural",
    [("water", ⟨"NATURAL_WATER", BLUE, 25⟩),
     ("coastline", ⟨"NATURAL_COASTLINE", BLUE, 50⟩),
     ("tree", ⟨"NATURAL_TREE", GREEN, 5⟩),
     ("forest", ⟨"NATURAL_FOREST", GREEN, 25⟩)]),
   ("amenity",
    [("default", ⟨"AMENITY", MAGENTA, 15⟩)]),
   ("landuse",
    [("default", ⟨"LANDUSE", YELLOW, 15⟩)])]

/-- The color override applied to a copied style: when use_colors is
    false the code sets the color field to WHITE (lines 102-103, 107-108). -/
def applyColor (use_colors : Bool) (li : LayerInfo) : LayerInfo :=
  if use_colors then li else { li with color := WHITE }

/-- The fallback style returned when no tag matched (line 112-113);
    the conditional there yields WHITE for either flag value. -/
def fallback_style : LayerInfo :=
  { layer := "OSM_OTHER", color := WHITE, lineweight := 10 }

/-- LayerMapper.get_layer_info (osm_to_dxf.py lines 95-113): iterate the
    tag pairs in stored order; for the first key found in layer_config,
    return the value match, else the category default, else keep
    scanning; when the scan is exhausted return the fallback style. -/
def get_layer_info (use_colors : Bool) : List (String × String) → LayerInfo
  | [] => fallback_style
  | (key, value) :: rest =>
    match lookupTab key layer_config with
    | none => get_layer_info use_colors rest
    | some category =>
      match lookupTab value category with
      | some li => applyColor use_colors li
      | none =>
        match lookupTab "default" category with
        | some li => applyColor use_colors li
        | none => get_layer_info use_colors rest

/-- Modelled from the spec (section 4.1 classification algorithm, stated
    in its own words for the refinement claim): iterate the feature tags
    in their stored order; for the first tag key present in the table,
    look up the tag value in that key value table; if found, return its
    style; else if the key table has a default entry, return that; else
    continue to the next tag; if no tag key matches any table entry,
    return layer OSM_OTHER, neutral color, line weight 10; a false
    use_colors flag forces every returned color to the neutral value. -/
def classify_spec : List (String × String) → Bool → LayerInfo
  | [], _ => { layer := "OSM_OTHER", color := WHITE, lineweight := 10 }
  | (k, v) :: rest, uc =>
    match lookupTab k layer_config with
    | some cat =>
      match lookupTab v cat with
      | some st => if uc then st else { st with color := WHITE }
      | none =>
        match lookupTab "default" cat with
        | some st => if uc then st else { st with color := WHITE }
        | none => classify_spec rest uc
    | none => classify_spec rest uc

/-- A tag pair contributes no style: its key is unknown to the table, or
    known with neither a value match nor a default entry. -/
def no_style_for (k v : String) : Prop :=
  match lookupTab k layer_config with
  | none => True
  | some cat => lookupTab v cat = none ∧ lookupTab "default" cat = none

instance (k v : String) : Decidable (no_style_for k v) := by
  unfold no_style_for
  cases lookupTab k layer_config <;> simp <;> infer_instance

/-- OSMNode (osm_to_dxf.py lines 22-31): id, raw coordinates, tags, and
    the projected coordinates x/y, which start out as None. -/
structure OSMNode where
  id : Int
  lat : Int
  lon : Int
  tags : List (String × String)
  x : Option Int := none
  y : Option Int := none
deriving DecidableEq, Repr

/-- OSMWay (osm_to_dxf.py lines 34-41): id, ordered node-id references, tags. -/
structure OSMWay where
  id : Int
  nodes : List Int
  tags : List (String × String)
deriving DecidableEq, Repr

/-- A point as appended in process_ways: the pair (node.x, node.y). -/
abbrev DxfPoint := Option Int × Option Int

/-- A drawing primitive added to the modelspace: add_circle
    (line 192) or add_lwpolyline (lines 226 and 233). -/
inductive Entity where
  | circle (center : DxfPoint) (radius : Nat) (layer : String)
  | lwpolyline (points : List DxfPoint) (close : Bool) (layer : String)
deriving DecidableEq, Repr

/-- The mutable state of DXFGenerator: the document layer table, the
    created_layers name set (kept as a list in creation order), the
    modelspace entities, and an instrumentation log recording every
    invocation of the coordinate transformer with its (lon, lat) argument. -/
structure GenState where
  layers : List (String × Nat × Nat)
  created : List String
  entities : List Entity
  calls : List (Int × Int)
deriving DecidableEq, Repr

/-- The state of a fresh DXFGenerator: empty document, no layers, no calls. -/
def initState : GenState := ⟨[], [], [], []⟩

/-- DXFGenerator.create_layer (lines 170-176): create the layer with the
    given color and lineweight unless the name was already created. -/
def create_layer (s : GenState) (name : String) (color : Nat) (lw : Nat) : GenState :=
  if name ∈ s.created then s
  else { s with layers := s.layers ++ [(name, color, lw)],
                created := s.created ++ [name] }

/-- The node-store lookup: Python membership and indexing of the nodes
    dict is by node id (insertion order list of nodes). -/
def findNode (ns : List OSMNode) (i : Int) : Option OSMNode :=
  ns.find? (fun n => n.id == i)

/-- Line 184: projecting a node stores the transformer result into x/y. -/
def project_node (proj : Int → Int → Int × Int) (n : OSMNode) : OSMNode :=
  { n with x := some (proj n.lon n.lat).1, y := some (proj n.lon n.lat).2 }

/-- Line 187: a node gets a point marker when it has tags and some tag
    key lies in the fixed point-worthy list. -/
def node_point_worthy (tags : List (String × String)) : Bool :=
  !tags.isEmpty && tags.any (fun kv => ["amenity", "shop", "tourism", "highway"].contains kv.1)

/-- The body of the process_nodes loop (lines 182-196) for one node:
    project the coordinates (logging the transformer call), then when the
    node is point-worthy classify it, ensure its layer and add a circle
    of radius 5 on that layer.  Returns the new state and the updated node. -/
def process_one_node (uc : Bool) (proj : Int → Int → Int × Int)
    (s : GenState) (n : OSMNode) : GenState × OSMNode :=
  let n₂ := project_node proj n
  let s₁ := { s with calls := s.calls ++ [(n.lon, n.lat)] }
  if node_point_worthy n₂.tags then
    let li := get_layer_info uc n₂.tags
    let s₂ := create_layer s₁ li.layer li.color li.lineweight
    ({ s₂ with entities := s₂.entities ++ [Entity.circle (n₂.x, n₂.y) 5 li.layer] }, n₂)
  else (s₁, n₂)

/-- DXFGenerator.process_nodes (lines 178-196): iterate the node store in
    stored order, projecting every node and emitting markers; returns the
    final state and the updated store. -/
def process_nodes (uc : Bool) (proj : Int → Int → Int × Int)
    (s : GenState) : List OSMNode → GenState × List OSMNode
  | [] => (s, [])
  | n :: rest =>
    let r := process_one_node uc proj s n
    let rr := process_nodes uc proj r.1 rest
    (rr.1, r.2 :: rr.2)

/-- Lines 207-211: resolve a node-id sequence to the stored (x, y)
    pairs, silently skipping ids absent from the store. -/
def way_coords (ns : List OSMNode) : List Int → List DxfPoint
  | [] => []
  | i :: rest =>
    match findNode ns i with
    | some n => (n.x, n.y) :: way_coords ns rest
    | none => way_coords ns rest

/-- Line 221: a way is drawn as a closed area when its tags map area to
    yes, or contain a building key, or contain a landuse key. -/
def is_area (tags : List (String × String)) : Bool :=
  lookupTab "area" tags == some "yes"
    || (lookupTab "building" tags).isSome
    || (lookupTab "landuse" tags).isSome

/-- Lines 223-224: close the ring by appending the first coordinate when
    it differs from the last one. -/
def close_ring (cs : List DxfPoint) : List DxfPoint :=
  match cs with
  | [] => []
  | c :: _ => if cs.getLast? = some c then cs else cs ++ [c]

/-- The polyline entity emitted for a (tagged, resolvable) way: closed
    with a closing ring for areas (lines 222-230), open and as-is
    otherwise (lines 232-236). -/
def way_polyline (uc : Bool) (ns : List OSMNode) (w : OSMWay) : Entity :=
  let cs := way_coords ns w.nodes
  let li := get_layer_info uc w.tags
  if is_area w.tags then Entity.lwpolyline (close_ring cs) true li.layer
  else Entity.lwpolyline cs false li.layer

/-- The body of the process_ways loop (lines 202-236) for a single way:
    skip untagged ways, resolve coordinates, skip ways with fewer than 2
    resolved points, otherwise classify, ensure the layer and append the
    polyline. -/
def process_way (uc : Bool) (ns : List OSMNode) (s : GenState) (w : OSMWay) : GenState :=
  if w.tags.isEmpty then s
  else
    let cs := way_coords ns w.nodes
    if cs.length < 2 then s
    else
      let li := get_layer_info uc w.tags
      let s₁ := create_layer s li.layer li.color li.lineweight
      { s₁ with entities := s₁.entities ++ [way_polyline uc ns w] }

/-- DXFGenerator.process_ways (lines 198-236): fold the way list over the
    single-way step.  The node store is returned unchanged because the
    source only reads from it (it contains no assignment to any node). -/
def process_ways (uc : Bool) (ns : List OSMNode) (s : GenState)
    (ws : List OSMWay) : GenState × List OSMNode :=
  (ws.foldl (process_way uc ns) s, ns)

/-!
Aliasing model for the classifier result.  In the Python source the
configured styles are dict objects; get_layer_info never returns one of
them directly: lines 101 and 106 return category[value].copy() resp.
category[default].copy(), and line 113 returns a fresh dict literal.  We
model object identity with a heap of style records addressed by index:
the addresses below some bound are the configuration entries, and a call
allocates one fresh cell at the end of the heap holding the (already
color-adjusted) result content given by the pure get_layer_info.
-/

/-- Read the style stored at a heap address. -/
def heap_read (h : List LayerInfo) (a : Nat) : Option LayerInfo := h[a]?

/-- Overwrite the style stored at a heap address (a caller mutating the
    dict it received). -/
def heap_write (h : List LayerInfo) (a : Nat) (st : LayerInfo) : List LayerInfo :=
  h.set a st

/-- get_layer_info with the copy discipline of lines 101, 106 and 113
    made explicit: allocate a fresh cell holding the result content and
    return its address. -/
def get_layer_info_alloc (h : List LayerInfo) (uc : Bool)
    (tags : List (String × String)) : List LayerInfo × Nat :=
  (h ++ [get_layer_info uc tags], h.length)

/-- Folding create_layer over a request list (the sequence of ensure-layer
    calls a conversion performs). -/
def run_creates (reqs : List (String × Nat × Nat)) (s : GenState) : GenState :=
  reqs.foldl (fun s r => create_layer s r.1 r.2.1 r.2.2) s

/-- Concrete node store for the building example of the spec: three nodes
    already projected to (0,0), (10,0), (10,10). -/
def store_ex : List OSMNode :=
  [{ id := 1, lat := 0, lon := 0, tags := [], x := some 0, y := some 0 },
   { id := 2, lat := 0, lon := 1, tags := [], x := some 10, y := some 0 },
   { id := 3, lat := 1, lon := 1, tags := [], x := some 10, y := some 10 }]

/-- Concrete way for the building example of the spec. -/
def way_ex : OSMWay := { id := 7, nodes := [1, 2, 3], tags := [("building", "yes")] }

/-- C10: on the empty tag mapping, for either flag value, the classifier
    returns exactly the fallback style: layer OSM_OTHER, color WHITE (7),
    lineweight 10.  Totality (it always returns some style on any tag
    mapping) holds by the return type of get_layer_info. -/
theorem getLayerInfo_empty_fallback (uc : Bool) :
    get_layer_info uc [] = { layer := "OSM_OTHER", color := WHITE, lineweight := 10 } := rfl

/-- C6: monochrome mode preserves the layer name and the lineweight of
    colored mode and always returns the WHITE color. -/
theorem getLayerInfo_monochrome (tags : List (String × String)) :
    (get_layer_info false tags).layer = (get_layer_info true tags).layer ∧
    (get_layer_info false tags).lineweight = (get_layer_info true tags).lineweight ∧
    (get_layer_info false tags).color = WHITE := by
  induction tags with
  | nil => exact ⟨rfl, rfl, rfl⟩
  | cons kv rest ih =>
    obtain ⟨k, v⟩ := kv
    simp only [get_layer_info]
    rcases hk : lookupTab k layer_config with _ | cat
    · simp only [hk]; exact ih
    · simp only [hk]
      rcases hv : lookupTab v cat with _ | li
      · simp only [hv]
        rcases hd : lookupTab "default" cat with _ | li
        · simp only [hd]; exact ih
        · simp only [hd]; simp [applyColor]
      · simp only [hv]; simp [applyColor]

/-- C1: get_layer_info implements the spec classification algorithm
    (refinement against classify_spec, written from the spec words), and
    whenever no tag of the mapping has a key matching any table entry the
    result is the fallback style OSM_OTHER / WHITE / 10. -/
theorem getLayerInfo_spec_refinement :
    (∀ (uc : Bool) (tags : List (String × String)),
        get_layer_info uc tags = classify_spec tags uc) ∧
    (∀ (uc : Bool) (tags : List (String × String)),
        (∀ kv ∈ tags, no_style_for kv.1 kv.2) →
        get_layer_info uc tags = { layer := "OSM_OTHER", color := WHITE, lineweight := 10 }) := by
  constructor
  · intro uc tags
    induction tags with
    | nil => rfl
    | cons kv rest ih =>
      obtain ⟨k, v⟩ := kv
      simp only [get_layer_info, classify_spec]
      rcases hk : lookupTab k layer_config with _ | cat
      · simp only [hk]; exact ih
      · simp only [hk]
        rcases hv : lookupTab v cat with _ | li
        · simp only [hv]
          rcases hd : lookupTab "default" cat with _ | li
          · simp only [hd]; exact ih
          · simp only [hd]; simp [applyColor]
        · simp only [hv]; simp [applyColor]
  · intro uc tags h
    induction tags with
    | nil => rfl
    | cons kv rest ih =>
      obtain ⟨k, v⟩ := kv
      have hhead := h (k, v) (by simp)
      have htail : ∀ kv ∈ rest, no_style_for kv.1 kv.2 := by
        intro kv hkv; exact h kv (List.mem_cons_of_mem _ hkv)
      simp only [get_layer_info]
      unfold no_style_for at hhead
      rcases hk : lookupTab k layer_config with _ | cat
      · simp only [hk]; exact ih htail
      · rw [hk] at hhead
        obtain ⟨hv, hd⟩ := hhead
        simp only [hk, hv, hd]
        exact ih htail

/-- C1 witness: the refinement at a concrete mixed tag mapping, and the
    fallback clause at a mapping touching no table key. -/
theorem getLayerInfo_spec_refinement_witness :
    get_layer_info false [("name", "A"), ("waterway", "stream")] =
      classify_spec [("name", "A"), ("waterway", "stream")] false ∧
    get_layer_info true [("name", "Main St"), ("surface", "asphalt")] =
      { layer := "OSM_OTHER", color := WHITE, lineweight := 10 } :=
  ⟨getLayerInfo_spec_refinement.1 false [("name", "A"), ("waterway", "stream")],
   getLayerInfo_spec_refinement.2 true [("name", "Main St"), ("surface", "asphalt")]
     (by decide)⟩

/-- create_layer never touches the modelspace entities. -/
theorem create_layer_entities (s : GenState) (name : String) (c lw : Nat) :
    (create_layer s name c lw).entities = s.entities := by
  unfold create_layer; split <;> rfl

/-- create_layer never touches the projection-call log. -/
theorem create_layer_calls (s : GenState) (name : String) (c lw : Nat) :
    (create_layer s name c lw).calls = s.calls := by
  unfold create_layer; split <;> rfl

/-- After create_layer the name is registered. -/
theorem create_layer_mem_created (s : GenState) (name : String) (c lw : Nat) :
    name ∈ (create_layer s name c lw).created := by
  unfold create_layer; split
  · assumption
  · simp

/-- create_layer is a no-op on an already registered name. -/
theorem create_layer_noop (s : GenState) (name : String) (c lw : Nat)
    (h : name ∈ s.created) : create_layer s name c lw = s := by
  simp [create_layer, h]

/-- C9: the classifier returns a fresh copy: the allocated address is
    outside the pre-existing heap, every pre-existing heap cell (in
    particular every configuration entry) is unchanged by the call and
    also by a caller later overwriting the returned cell, and the
    content read back at the returned address is always the pure
    classification result, so repeated calls on the same tag mapping and
    flag yield equal contents. -/
theorem getLayerInfo_fresh_copy (h : List LayerInfo) (uc : Bool)
    (tags : List (String × String)) (st : LayerInfo) (a : Nat) :
    (get_layer_info_alloc h uc tags).2 = h.length ∧
    (a < h.length → heap_read (get_layer_info_alloc h uc tags).1 a = heap_read h a) ∧
    (a < h.length →
      heap_read (heap_write (get_layer_info_alloc h uc tags).1
        (get_layer_info_alloc h uc tags).2 st) a = heap_read h a) ∧
    heap_read (get_layer_info_alloc h uc tags).1 (get_layer_info_alloc h uc tags).2 =
      some (get_layer_info uc tags) := by
  refine ⟨rfl, ?_, ?_, ?_⟩
  · intro ha
    simp only [get_layer_info_alloc, heap_read]
    rw [List.getElem?_append]
    simp [ha]
  · intro ha
    simp only [get_layer_info_alloc, heap_read, heap_write]
    rw [List.getElem?_set_ne (by omega)]
    rw [List.getElem?_append]
    simp [ha]
  · simp only [get_layer_info_alloc, heap_read]
    exact List.getElem?_concat_length h (get_layer_info uc tags)

/-- C9 witness: the heap facts at a concrete one-entry heap, a concrete
    overwrite and a concrete tag mapping. -/
theorem getLayerInfo_fresh_copy_witness :
    (0 : Nat) < ([⟨"BUILDING", GRAY, 25⟩] : List LayerInfo).length ∧
    (get_layer_info_alloc [⟨"BUILDING", GRAY, 25⟩] true [("building", "yes")]).2 = 1 ∧
    heap_read (get_layer_info_alloc [⟨"BUILDING", GRAY, 25⟩] true [("building", "yes")]).1 0 =
      some ⟨"BUILDING", GRAY, 25⟩ ∧
    heap_read (heap_write
        (get_layer_info_alloc [⟨"BUILDING", GRAY, 25⟩] true [("building", "yes")]).1
        (get_layer_info_alloc [⟨"BUILDING", GRAY, 25⟩] true [("building", "yes")]).2
        ⟨"X", 0, 0⟩) 0 =
      some ⟨"BUILDING", GRAY, 25⟩ := by
  have hmain := getLayerInfo_fresh_copy [⟨"BUILDING", GRAY, 25⟩] true
    [("building", "yes")] ⟨"X", 0, 0⟩ 0
  refine ⟨by decide, hmain.1, ?_, ?_⟩
  · rw [hmain.2.1 (by decide)]; decide
  · rw [hmain.2.2.1 (by decide)]; decide

/-- Invariant of folded layer creation: the created-name list stays
    duplicate-free, stays equal to the names of the document layer table,
    and as a set grows by exactly the requested names. -/
theorem run_creates_invariant (reqs : List (String × Nat × Nat)) (s : GenState)
    (h1 : s.created.Nodup) (h2 : s.created = s.layers.map Prod.fst) :
    (run_creates reqs s).created.Nodup ∧
    (run_creates reqs s).created = (run_creates reqs s).layers.map Prod.fst ∧
    (run_creates reqs s).created.toFinset =
      s.created.toFinset ∪ (reqs.map Prod.fst).toFinset := by
  induction reqs generalizing s with
  | nil => exact ⟨h1, h2, by simp [run_creates]⟩
  | cons r rest ih =>
    obtain ⟨name, c, lw⟩ := r
    simp only [run_creates, List.foldl_cons] at *
    by_cases hmem : name ∈ s.created
    · have hstep : create_layer s name c lw = s := create_layer_noop s name c lw hmem
      rw [hstep]
      obtain ⟨i1, i2, i3⟩ := ih s h1 h2
      refine ⟨i1, i2, ?_⟩
      rw [i3]
      have hname : name ∈ s.created.toFinset := List.mem_toFinset.mpr hmem
      ext x
      simp only [Finset.mem_union, List.mem_toFinset, List.map_cons, List.toFinset_cons,
        Finset.mem_insert]
      constructor
      · rintro (hx | hx)
        · exact Or.inl hx
        · exact Or.inr (Or.inr hx)
      · rintro (hx | hx | hx)
        · exact Or.inl hx
        · exact Or.inl (by rw [hx]; exact hmem)
        · exact Or.inr hx
    · have hstep : create_layer s name c lw =
          { s with layers := s.layers ++ [(name, c, lw)],
                   created := s.created ++ [name] } := by
        simp [create_layer, hmem]
      rw [hstep]
      have h1' : (s.created ++ [name]).Nodup := by
        simp [List.nodup_append, h1, hmem]
      have h2' : s.created ++ [name] =
          (s.layers ++ [(name, c, lw)]).map Prod.fst := by
        rw [List.map_append, ← h2]; rfl
      obtain ⟨i1, i2, i3⟩ :=
        ih { s with layers := s.layers ++ [(name, c, lw)],
                    created := s.created ++ [name] } h1' h2'
      refine ⟨i1, i2, ?_⟩
      rw [i3]
      ext x
      simp only [List.toFinset_append, Finset.mem_union, List.mem_toFinset, List.map_cons,
        List.toFinset_cons, Finset.mem_insert, List.toFinset_nil, List.mem_singleton]
      tauto

/-- C5: layer registration is idempotent with first-write-wins: a second
    call with the same name is a no-op whatever the new color and
    lineweight; the first call for an unregistered name appends exactly
    the given style; and after any sequence of requests starting from a
    fresh document the layer count equals the number of distinct
    requested names. -/
theorem createLayer_idempotent_count :
    (∀ (s : GenState) (name : String) (c lw c₂ lw₂ : Nat),
        create_layer (create_layer s name c lw) name c₂ lw₂ = create_layer s name c lw) ∧
    (∀ (s : GenState) (name : String) (c lw : Nat), name ∉ s.created →
        (create_layer s name c lw).layers = s.layers ++ [(name, c, lw)] ∧
        (create_layer s name c lw).created = s.created ++ [name]) ∧
    (∀ reqs : List (String × Nat × Nat),
        (run_creates reqs initState).layers.length = (reqs.map Prod.fst).toFinset.card) := by
  refine ⟨?_, ?_, ?_⟩
  · intro s name c lw c₂ lw₂
    exact create_layer_noop (create_layer s name c lw) name c₂ lw₂
      (create_layer_mem_created s name c lw)
  · intro s name c lw hmem
    simp [create_layer, hmem]
  · intro reqs
    obtain ⟨i1, i2, i3⟩ := run_creates_invariant reqs initState (by simp [initState]) rfl
    have hlen : (run_creates reqs initState).created.length =
        (run_creates reqs initState).layers.length := by
      rw [i2, List.length_map]
    have hcard : (run_creates reqs initState).created.toFinset.card =
        (run_creates reqs initState).created.length :=
      List.toFinset_card_of_nodup i1
    rw [← hlen, ← hcard, i3]
    simp [initState]

/-- C5 witness: registering the same name twice with different styles
    from a fresh document keeps the first style, and the layer count over
    a concrete request list with repeats equals the distinct-name count. -/
theorem createLayer_idempotent_count_witness :
    create_layer (create_layer initState "BUILDING" 8 25) "BUILDING" 1 99 =
      create_layer initState "BUILDING" 8 25 ∧
    ("AMENITY" ∉ initState.created) ∧
    (create_layer initState "AMENITY" 6 15).layers = [("AMENITY", 6, 15)] ∧
    (run_creates [("A", 1, 2), ("B", 3, 4), ("A", 5, 6)] initState).layers.length = 2 := by
  refine ⟨createLayer_idempotent_count.1 initState "BUILDING" 8 25 1 99, by decide,
    ?_, ?_⟩
  · have := (createLayer_idempotent_count.2.1 initState "AMENITY" 6 15 (by decide)).1
    rw [this]; rfl
  · rw [createLayer_idempotent_count.2.2 [("A", 1, 2), ("B", 3, 4), ("A", 5, 6)]]
    decide

/-- A tagged way with at least two resolved coordinates appends exactly
    its polyline to the modelspace. -/
theorem process_way_emits (uc : Bool) (ns : List OSMNode) (s : GenState) (w : OSMWay)
    (hT : w.tags ≠ []) (hL : 2 ≤ (way_coords ns w.nodes).length) :
    (process_way uc ns s w).entities = s.entities ++ [way_polyline uc ns w] := by
  have hT' : w.tags.isEmpty = false := by
    cases h : w.tags with
    | nil => exact absurd h hT
    | cons a l => rfl
  unfold process_way
  rw [hT']
  simp only [Bool.false_eq_true, if_false]
  rw [if_neg (by omega)]
  simp [create_layer_entities]

/-- C2: a tagged, resolvable way is emitted as a closed polyline exactly
    when its tags carry area=yes, a building key or a landuse key; the
    closed ring gets the first coordinate appended exactly when first and
    last resolved coordinates differ, and open ways keep the resolved
    sequence as-is. -/
theorem processWay_closedness (uc : Bool) (ns : List OSMNode) (s : GenState) (w : OSMWay)
    (hT : w.tags ≠ []) (hL : 2 ≤ (way_coords ns w.nodes).length) :
    (process_way uc ns s w).entities = s.entities ++ [way_polyline uc ns w] ∧
    (is_area w.tags = true →
      way_polyline uc ns w =
        Entity.lwpolyline (close_ring (way_coords ns w.nodes)) true
          (get_layer_info uc w.tags).layer) ∧
    (is_area w.tags = false →
      way_polyline uc ns w =
        Entity.lwpolyline (way_coords ns w.nodes) false (get_layer_info uc w.tags).layer) ∧
    (is_area w.tags = true ↔
      lookupTab "area" w.tags = some "yes" ∨
        (lookupTab "building" w.tags).isSome = true ∨
        (lookupTab "landuse" w.tags).isSome = true) ∧
    (∀ c rest, way_coords ns w.nodes = c :: rest →
      ((c :: rest).getLast? = some c → close_ring (c :: rest) = c :: rest) ∧
      ((c :: rest).getLast? ≠ some c → close_ring (c :: rest) = (c :: rest) ++ [c])) := by
  refine ⟨process_way_emits uc ns s w hT hL, ?_, ?_, ?_, ?_⟩
  · intro hA; simp [way_polyline, hA]
  · intro hA; simp [way_polyline, hA]
  · simp [is_area, Bool.or_eq_true, beq_iff_eq, or_assoc]
  · intro c rest hcs
    constructor
    · intro hlast; simp [close_ring, hlast]
    · intro hlast; simp [close_ring, hlast]

/-- C2 witness: the building example of the spec: tags building=yes,
    coordinates (0,0), (10,0), (10,10); the emitted entity is a closed
    polyline with 4 points, the 4th equal to (0,0), on layer BUILDING. -/
theorem processWay_closedness_witness :
    way_ex.tags ≠ [] ∧
    2 ≤ (way_coords store_ex way_ex.nodes).length ∧
    (process_way true store_ex initState way_ex).entities =
      [Entity.lwpolyline
        [(some 0, some 0), (some 10, some 0), (some 10, some 10), (some 0, some 0)]
        true "BUILDING"] := by
  have hmain := processWay_closedness true store_ex initState way_ex
    (by decide) (by decide)
  refine ⟨by decide, by decide, ?_⟩
  rw [hmain.1]
  decide

/-- C3: untagged ways produce nothing and change nothing; coordinate
    resolution preserves order and silently omits unknown ids; fewer than
    two resolved coordinates produce nothing; and a tagged way with at
    least two resolved coordinates emits exactly one entity, a polyline. -/
theorem processWay_skip_and_resolve (uc : Bool) (ns : List OSMNode) (s : GenState)
    (w : OSMWay) :
    (w.tags = [] → process_way uc ns s w = s) ∧
    (∀ (ids₁ : List Int) (i : Int) (ids₂ : List Int), findNode ns i = none →
      way_coords ns (ids₁ ++ i :: ids₂) = way_coords ns (ids₁ ++ ids₂)) ∧
    (∀ (ids₁ : List Int) (i : Int) (n : OSMNode) (ids₂ : List Int), findNode ns i = some n →
      way_coords ns (ids₁ ++ i :: ids₂) =
        way_coords ns ids₁ ++ (n.x, n.y) :: way_coords ns ids₂) ∧
    (w.tags ≠ [] → (way_coords ns w.nodes).length < 2 → process_way uc ns s w = s) ∧
    (w.tags ≠ [] → 2 ≤ (way_coords ns w.nodes).length →
      (process_way uc ns s w).entities.length = s.entities.length + 1 ∧
      ∃ pts cl l, (process_way uc ns s w).entities =
        s.entities ++ [Entity.lwpolyline pts cl l]) := by
  refine ⟨?_, ?_, ?_, ?_, ?_⟩
  · intro hT
    unfold process_way
    rw [hT]
    rfl
  · intro ids₁ i ids₂ hfind
    induction ids₁ with
    | nil => simp [way_coords, hfind]
    | cons j rest ih =>
      simp only [List.cons_append, way_coords]
      rcases hj : findNode ns j with _ | m
      · simpa only [hj] using ih
      · simp only [hj]
        exact congrArg (List.cons (m.x, m.y)) ih
  · intro ids₁ i n ids₂ hfind
    induction ids₁ with
    | nil => simp [way_coords, hfind]
    | cons j rest ih =>
      simp only [List.cons_append, way_coords]
      rcases hj : findNode ns j with _ | m
      · simpa only [hj] using ih
      · simp only [hj, List.cons_append]
        exact congrArg (List.cons (m.x, m.y)) ih
  · intro hT hL
    have hT' : w.tags.isEmpty = false := by
      cases h : w.tags with
      | nil => exact absurd h hT
      | cons a l => rfl
    unfold process_way
    rw [hT']
    simp only [Bool.false_eq_true, if_false]
    rw [if_pos hL]
  · intro hT hL
    have hE := process_way_emits uc ns s w hT hL
    refine ⟨by rw [hE]; simp, ?_⟩
    unfold way_polyline at hE
    by_cases hA : is_area w.tags
    · exact ⟨_, _, _, by rw [hE, if_pos hA]⟩
    · exact ⟨_, _, _, by rw [hE, if_neg hA]⟩

/-- C3 witness: an untagged way emits nothing; an id absent from the
    store is omitted from resolution; a way with only one resolvable id
    out of three emits nothing; the building example emits exactly one
    polyline. -/
theorem processWay_skip_and_resolve_witness :
    process_way true store_ex initState { id := 9, nodes := [1, 2, 3], tags := [] } =
      initState ∧
    way_coords store_ex ([1] ++ 99 :: [2]) = way_coords store_ex ([1] ++ [2]) ∧
    way_coords store_ex ([] ++ 2 :: [3]) =
      way_coords store_ex [] ++ (some 10, some 0) :: way_coords store_ex [3] ∧
    process_way true store_ex initState
      { id := 10, nodes := [1, 98, 99], tags := [("highway", "residential")] } =
      initState ∧
    (process_way true store_ex initState way_ex).entities.length =
      initState.entities.length + 1 := by
  have h₁ := processWay_skip_and_resolve true store_ex initState
    { id := 9, nodes := [1, 2, 3], tags := [] }
  have h₂ := processWay_skip_and_resolve true store_ex initState
    { id := 10, nodes := [1, 98, 99], tags := [("highway", "residential")] }
  have h₃ := processWay_skip_and_resolve true store_ex initState way_ex
  refine ⟨h₁.1 rfl, ?_, ?_, ?_, (h₃.2.2.2.2 (by decide) (by decide)).1⟩
  · exact h₁.2.1 [1] 99 [2] (by decide)
  · exact h₁.2.2.1 [] 2 ⟨2, 0, 1, [], some 10, some 0⟩ [3] (by decide)
  · exact h₂.2.2.2.1 (by decide) (by decide)

/-- Projection leaves the node tags untouched. -/
theorem project_node_tags (proj : Int → Int → Int × Int) (n : OSMNode) :
    (project_node proj n).tags = n.tags := rfl

/-- C4: a node produces exactly one circle of radius 5 on its classified
    layer, registered in the layer set, exactly when some tag key lies in
    the fixed point-worthy set; otherwise it produces no geometry. -/
theorem processNode_markers (uc : Bool) (proj : Int → Int → Int × Int)
    (s : GenState) (n : OSMNode) :
    (node_point_worthy n.tags = true ↔
      ∃ kv ∈ n.tags, kv.1 ∈ (["amenity", "shop", "tourism", "highway"] : List String)) ∧
    (node_point_worthy n.tags = false →
      (process_one_node uc proj s n).1.entities = s.entities) ∧
    (node_point_worthy n.tags = true →
      (process_one_node uc proj s n).1.entities =
        s.entities ++ [Entity.circle ((project_node proj n).x, (project_node proj n).y) 5
          (get_layer_info uc n.tags).layer] ∧
      (get_layer_info uc n.tags).layer ∈ (process_one_node uc proj s n).1.created) := by
  refine ⟨?_, ?_, ?_⟩
  · constructor
    · intro h
      simp only [node_point_worthy, Bool.and_eq_true, List.any_eq_true] at h
      obtain ⟨-, kv, hkv, hc⟩ := h
      exact ⟨kv, hkv, by simpa using hc⟩
    · rintro ⟨kv, hkv, hc⟩
      simp only [node_point_worthy, Bool.and_eq_true, List.any_eq_true]
      refine ⟨?_, kv, hkv, by simpa using hc⟩
      have : n.tags ≠ [] := List.ne_nil_of_mem hkv
      simp [List.isEmpty_iff, this]
  · intro h
    simp only [process_one_node, project_node_tags, h]
    rfl
  · intro h
    simp only [process_one_node, project_node_tags, h, if_true]
    exact ⟨by simp [create_layer_entities], create_layer_mem_created _ _ _ _⟩

/-- C4 witness: a node tagged amenity=cafe yields one radius-5 circle on
    the registered layer AMENITY; a node with only a name tag yields none. -/
theorem processNode_markers_witness :
    node_point_worthy [("amenity", "cafe")] = true ∧
    (process_one_node true (fun a b => (a, b)) initState
      ⟨5, 2, 3, [("amenity", "cafe")], none, none⟩).1.entities =
      [Entity.circle (some 3, some 2) 5 "AMENITY"] ∧
    "AMENITY" ∈ (process_one_node true (fun a b => (a, b)) initState
      ⟨5, 2, 3, [("amenity", "cafe")], none, none⟩).1.created ∧
    node_point_worthy [("name", "Main St")] = false ∧
    (process_one_node true (fun a b => (a, b)) initState
      ⟨6, 0, 0, [("name", "Main St")], none, none⟩).1.entities = [] := by
  have h₁ := processNode_markers true (fun a b => (a, b)) initState
    ⟨5, 2, 3, [("amenity", "cafe")], none, none⟩
  have h₂ := processNode_markers true (fun a b => (a, b)) initState
    ⟨6, 0, 0, [("name", "Main St")], none, none⟩
  refine ⟨by decide, ?_, ?_, by decide, ?_⟩
  · rw [(h₁.2.2 (by decide)).1]
    decide
  · have hmem := (h₁.2.2 (by decide)).2
    exact (by decide :
      (get_layer_info true [("amenity", "cafe")]).layer = "AMENITY") ▸ hmem
  · rw [h₂.2.1 (by decide)]
    rfl

/-- C7 counterexample: the tag mapping [highway=residential, building=x]
    contains the key building, which is in the priority table with value
    x absent from its value table and with a default entry, yet the
    classifier does not return that default entry (the earlier highway
    tag wins). -/
theorem getLayerInfo_known_key_default_cex :
    ("building", "x") ∈ ([("highway", "residential"), ("building", "x")] :
      List (String × String)) ∧
    lookupTab "building" layer_config = some [("default", ⟨"BUILDING", GRAY, 25⟩)] ∧
    lookupTab "x" [("default", (⟨"BUILDING", GRAY, 25⟩ : LayerInfo))] = none ∧
    lookupTab "default" [("default", (⟨"BUILDING", GRAY, 25⟩ : LayerInfo))] =
      some ⟨"BUILDING", GRAY, 25⟩ ∧
    get_layer_info true [("highway", "residential"), ("building", "x")] ≠
      applyColor true ⟨"BUILDING", GRAY, 25⟩ := by decide

/-- C7 amended: if the first tag of the mapping whose key is present in
    the priority table is a pair (k, v) with v absent from that key value
    table, and that key table has a default entry, then the classifier
    returns that default entry (color forced to WHITE when use_colors is
    false). -/
theorem getLayerInfo_first_key_default (uc : Bool) (pre post : List (String × String))
    (k v : String) (cat : List (String × LayerInfo)) (d : LayerInfo)
    (hpre : ∀ kv ∈ pre, lookupTab kv.1 layer_config = none)
    (hk : lookupTab k layer_config = some cat)
    (hv : lookupTab v cat = none)
    (hd : lookupTab "default" cat = some d) :
    get_layer_info uc (pre ++ (k, v) :: post) = applyColor uc d := by
  induction pre with
  | nil =>
    simp only [List.nil_append, get_layer_info, hk, hv, hd]
  | cons kv rest ih =>
    obtain ⟨k₂, v₂⟩ := kv
    have h0 : lookupTab k₂ layer_config = none := hpre (k₂, v₂) (by simp)
    have htail : ∀ kv ∈ rest, lookupTab kv.1 layer_config = none := fun kv hkv =>
      hpre kv (List.mem_cons_of_mem _ hkv)
    simp only [List.cons_append, get_layer_info, h0]
    exact ih htail

/-- C7 amended witness: with a leading unknown key, the unmatched value
    hut under the building key yields the building default entry. -/
theorem getLayerInfo_first_key_default_witness :
    (∀ kv ∈ ([("name", "x")] : List (String × String)),
      lookupTab kv.1 layer_config = none) ∧
    lookupTab "building" layer_config = some [("default", ⟨"BUILDING", GRAY, 25⟩)] ∧
    lookupTab "hut" [("default", (⟨"BUILDING", GRAY, 25⟩ : LayerInfo))] = none ∧
    lookupTab "default" [("default", (⟨"BUILDING", GRAY, 25⟩ : LayerInfo))] =
      some ⟨"BUILDING", GRAY, 25⟩ ∧
    get_layer_info false [("name", "x"), ("building", "hut")] =
      applyColor false ⟨"BUILDING", GRAY, 25⟩ :=
  ⟨by decide, by decide, by decide, by decide,
   getLayerInfo_first_key_default false [("name", "x")] [] "building" "hut"
     [("default", ⟨"BUILDING", GRAY, 25⟩)] ⟨"BUILDING", GRAY, 25⟩
     (by decide) (by decide) (by decide) (by decide)⟩

/-- Processing one node logs exactly one projection call and stores the
    projected coordinates into the node. -/
theorem process_one_node_calls (uc : Bool) (proj : Int → Int → Int × Int)
    (s : GenState) (n : OSMNode) :
    (process_one_node uc proj s n).1.calls = s.calls ++ [(n.lon, n.lat)] ∧
    (process_one_node uc proj s n).2 = project_node proj n := by
  simp only [process_one_node]
  split
  · exact ⟨by simp [create_layer_calls], rfl⟩
  · exact ⟨rfl, rfl⟩

/-- The node pass logs the projection calls of the store in order. -/
theorem process_nodes_calls (uc : Bool) (proj : Int → Int → Int × Int)
    (ns : List OSMNode) : ∀ s : GenState,
    (process_nodes uc proj s ns).1.calls = s.calls ++ ns.map (fun n => (n.lon, n.lat)) ∧
    (process_nodes uc proj s ns).2 = ns.map (project_node proj) := by
  induction ns with
  | nil => intro s; simp [process_nodes]
  | cons n rest ih =>
    intro s
    obtain ⟨h1, h2⟩ := process_one_node_calls uc proj s n
    obtain ⟨h3, h4⟩ := ih (process_one_node uc proj s n).1
    simp only [process_nodes, List.map_cons]
    refine ⟨?_, ?_⟩
    · rw [h3, h1, List.append_assoc]
      rfl
    · rw [h4, h2]

/-- A single way step never touches the projection-call log. -/
theorem process_way_calls (uc : Bool) (ns : List OSMNode) (s : GenState) (w : OSMWay) :
    (process_way uc ns s w).calls = s.calls := by
  simp only [process_way]
  split
  · rfl
  · split
    · rfl
    · simp [create_layer_calls]

/-- The way pass never touches the projection-call log. -/
theorem process_ways_fold_calls (uc : Bool) (ns : List OSMNode) (ws : List OSMWay) :
    ∀ s : GenState, (ws.foldl (process_way uc ns) s).calls = s.calls := by
  induction ws with
  | nil => intro s; rfl
  | cons w rest ih =>
    intro s
    simp only [List.foldl_cons]
    rw [ih, process_way_calls]

/-- C8: the node pass invokes the projection exactly once per node, in
    store order, and stores each result exactly once; the way pass never
    invokes the projection again and returns the node store unchanged,
    however many ways reference a node. -/
theorem projection_exactly_once (uc : Bool) (proj : Int → Int → Int × Int)
    (s s₂ : GenState) (ns ns₂ : List OSMNode) (ws : List OSMWay) :
    (process_nodes uc proj s ns).1.calls = s.calls ++ ns.map (fun n => (n.lon, n.lat)) ∧
    (process_nodes uc proj s ns).2 = ns.map (project_node proj) ∧
    (process_ways uc ns₂ s₂ ws).1.calls = s₂.calls ∧
    (process_ways uc ns₂ s₂ ws).2 = ns₂ :=
  ⟨(process_nodes_calls uc proj ns s).1, (process_nodes_calls uc proj ns s).2,
   process_ways_fold_calls uc ns₂ ws s₂, rfl⟩
